import Mathlib

/-!
# Verification of the sandboxed filesystem access layer

Shallow embedding of `src/filesystem.py`: the allow-list resolver
(`_get_allowed_dir`), the authorization gate (`_path_is_allowed`) and the
gated file operations (`write_file`, `edit_file`, `move`).

Modelling conventions:
* A canonical (resolved) absolute path is a list of path components
  (`CPath`); the filesystem root is `[]`.
* `Path(p).resolve()` depends on the ambient filesystem (cwd, symlinks,
  mounts), so it is modelled as an environment function `Env.resolve`
  from raw path strings to canonical paths.  Concrete environments are
  supplied in witnesses.
* The mutable filesystem is an association list from canonical paths to
  entries (`FSState`).  Operations take a state and return the new state
  together with `Except Err String`; every error is raised before any
  mutation in the source, so error outcomes return the input state.
* Python exceptions are collapsed into the inductive `Err`:
  `KeyError` on a missing environment variable, `json.JSONDecodeError` /
  `TypeError` during configuration parsing (the spec's
  ConfigurationError), `NotAuthorizedError`, `FileExistsError` on `move`
  (the spec's ConflictError), and OS-level I/O errors.
-/

set_option maxRecDepth 4000

/-- A canonical absolute path, as its chain of components from the root. -/
abbrev CPath := List String

/-- `Path.parents` of a canonical path: all strict ancestors, nearest
first, down to the root `[]` (mirrors `Path('/a/b/c').parents ==
[/a/b, /a, /]`). -/
def parents (p : CPath) : List CPath :=
  ((List.range p.length).map (fun k => p.take k)).reverse

/-- The ambient operating-system environment: how `Path(s).resolve()`
canonicalizes a raw path string (eliminating `.`, `..` and symlinks). -/
structure Env where
  resolve : String → CPath

/-- The errors the modelled operations can raise. -/
inductive Err where
  /-- `NotAuthorizedError`: path outside the allow-list. -/
  | notAuthorized
  /-- `KeyError`: `os.environ["ALLOWED_DIR"]` with the variable unset. -/
  | keyError
  /-- `json.JSONDecodeError` / `TypeError` while parsing the allow-list
  configuration (the spec's ConfigurationError). -/
  | configError
  /-- An OS-level I/O failure (missing file, open a directory, ...). -/
  | ioError
  /-- `FileExistsError` raised by `move` (the spec's ConflictError). -/
  | fileExists
  deriving DecidableEq, Repr

/-- `_path_is_allowed(path)`: returns normally iff the resolved candidate
equals an allowed root or has an allowed root among its `parents`;
otherwise raises `NotAuthorizedError`.  Direct translation of

```
if any(Path(path).resolve() == dir for dir in ALLOWED_DIR): return
if not any(dir in Path(path).resolve().parents for dir in ALLOWED_DIR):
    raise NotAuthorizedError()
```
-/
def path_is_allowed (env : Env) (allowed : List CPath) (path : String) :
    Except Err Unit :=
  if allowed.any (fun dir => env.resolve path == dir) then .ok ()
  else if !(allowed.any (fun dir => (parents (env.resolve path)).contains dir)) then
    .error .notAuthorized
  else .ok ()

/-! ## Model of `json.loads`

`_get_allowed_dir` calls `json.loads` on the configuration value and then
iterates over the result.  The parser below follows the JSON grammar as
accepted by Python's `json.loads` (strict strings, no leading zeros,
`NaN`/`Infinity` literals, whitespace = space/tab/newline/return).  The
numeric value of a number never matters downstream (iterating over a
number raises `TypeError`), so numbers carry no payload. -/

/-- A parsed JSON value. -/
inductive JVal where
  | str (s : String)
  | num
  | bool (b : Bool)
  | null
  | arr (elems : List JVal)
  | obj (fields : List (String × JVal))

/-- Skip JSON whitespace (space, tab, newline, carriage return). -/
def skipWs : List Char → List Char
  | c :: rest =>
    if c = ' ' ∨ c = '\t' ∨ c = '\n' ∨ c = '\r' then skipWs rest else c :: rest
  | [] => []

/-- Hexadecimal digit value, if any. -/
def hexVal (c : Char) : Option Nat :=
  if '0' ≤ c ∧ c ≤ '9' then some (c.toNat - '0'.toNat)
  else if 'a' ≤ c ∧ c ≤ 'f' then some (c.toNat - 'a'.toNat + 10)
  else if 'A' ≤ c ∧ c ≤ 'F' then some (c.toNat - 'A'.toNat + 10)
  else none

/-- Parse the body of a JSON string (the opening quote already consumed),
returning the decoded characters and the input after the closing quote.
Strict mode: raw control characters are rejected, escapes are the JSON
ones. -/
def parseJString : List Char → Except String (List Char × List Char)
  | [] => .error "unterminated string"
  | '"' :: rest => .ok ([], rest)
  | '\\' :: e :: rest2 =>
    match e with
    | '"' => do let (s, r) ← parseJString rest2; .ok ('"' :: s, r)
    | '\\' => do let (s, r) ← parseJString rest2; .ok ('\\' :: s, r)
    | '/' => do let (s, r) ← parseJString rest2; .ok ('/' :: s, r)
    | 'b' => do let (s, r) ← parseJString rest2; .ok ('\x08' :: s, r)
    | 'f' => do let (s, r) ← parseJString rest2; .ok ('\x0c' :: s, r)
    | 'n' => do let (s, r) ← parseJString rest2; .ok ('\n' :: s, r)
    | 'r' => do let (s, r) ← parseJString rest2; .ok ('\r' :: s, r)
    | 't' => do let (s, r) ← parseJString rest2; .ok ('\t' :: s, r)
    | 'u' =>
      match rest2 with
      | h1 :: h2 :: h3 :: h4 :: rest3 =>
        match hexVal h1, hexVal h2, hexVal h3, hexVal h4 with
        | some a, some b, some c, some d => do
          let (s, r) ← parseJString rest3
          .ok (Char.ofNat (((a * 16 + b) * 16 + c) * 16 + d) :: s, r)
        | _, _, _, _ => .error "invalid unicode escape"
      | _ => .error "invalid unicode escape"
    | _ => .error "invalid escape"
  | '\\' :: [] => .error "unterminated string"
  | c :: rest =>
    if c.toNat < 0x20 then .error "invalid control character"
    else do let (s, r) ← parseJString rest; .ok (c :: s, r)

/-- Consume a maximal run of decimal digits. -/
def parseDigits : List Char → (List Char × List Char)
  | c :: rest =>
    if c.isDigit then
      let (d, r) := parseDigits rest
      (c :: d, r)
    else ([], c :: rest)
  | [] => ([], [])

/-- Consume an optional JSON fraction part (`.` digits). -/
def parseFracPart : List Char → List Char
  | '.' :: d :: rest =>
    if d.isDigit then (parseDigits (d :: rest)).2 else '.' :: d :: rest
  | cs => cs

/-- Consume an optional JSON exponent part (`e`/`E` sign? digits). -/
def parseExpPart : List Char → List Char
  | e :: rest =>
    if e = 'e' ∨ e = 'E' then
      match rest with
      | s :: d :: rest2 =>
        if (s = '+' ∨ s = '-') ∧ d.isDigit then (parseDigits (d :: rest2)).2
        else if s.isDigit then (parseDigits (s :: d :: rest2)).2
        else e :: rest
      | [d] => if d.isDigit then [] else e :: rest
      | [] => e :: rest
    else e :: rest
  | [] => []

/-- Parse a JSON number at the head of the input (maximal match, as the
`json` module's number regex does), returning the remaining input. -/
def parseNumber (cs : List Char) : Except String (List Char) :=
  match cs with
  | '-' :: rest =>
    match rest with
    | '0' :: rest2 => .ok (parseExpPart (parseFracPart rest2))
    | d :: rest2 =>
      if d.isDigit then .ok (parseExpPart (parseFracPart (parseDigits (d :: rest2)).2))
      else .error "expecting value"
    | [] => .error "expecting value"
  | '0' :: rest => .ok (parseExpPart (parseFracPart rest))
  | d :: rest =>
    if d.isDigit then .ok (parseExpPart (parseFracPart (parseDigits (d :: rest)).2))
    else .error "expecting value"
  | [] => .error "expecting value"

/-- Parser mode: a single value, the items of an array after `[`, or the
members of an object after an opening brace. -/
inductive PMode where
  | val
  | arrItems
  | objItems

/-- One fueled step of the JSON parser.  `arrItems`/`objItems` parse the
non-empty tail of an array/object and return it as `JVal.arr`/`JVal.obj`.
The fuel only bounds nesting and item count; `json_loads` supplies more
fuel than any input can consume. -/
def parseStep : Nat → PMode → List Char → Except String (JVal × List Char)
  | 0, _, _ => .error "out of fuel"
  | Nat.succ fuel, PMode.val, cs =>
    match skipWs cs with
    | '"' :: rest => do
      let (s, r) ← parseJString rest
      .ok (JVal.str (String.mk s), r)
    | '[' :: rest =>
      (match skipWs rest with
       | ']' :: r2 => .ok (JVal.arr [], r2)
       | cs2 => parseStep fuel PMode.arrItems cs2)
    | '\x7b' :: rest =>
      (match skipWs rest with
       | '\x7d' :: r2 => .ok (JVal.obj [], r2)
       | cs2 => parseStep fuel PMode.objItems cs2)
    | 't' :: 'r' :: 'u' :: 'e' :: rest => .ok (JVal.bool true, rest)
    | 'f' :: 'a' :: 'l' :: 's' :: 'e' :: rest => .ok (JVal.bool false, rest)
    | 'n' :: 'u' :: 'l' :: 'l' :: rest => .ok (JVal.null, rest)
    | 'N' :: 'a' :: 'N' :: rest => .ok (JVal.num, rest)
    | 'I' :: 'n' :: 'f' :: 'i' :: 'n' :: 'i' :: 't' :: 'y' :: rest =>
      .ok (JVal.num, rest)
    | '-' :: 'I' :: 'n' :: 'f' :: 'i' :: 'n' :: 'i' :: 't' :: 'y' :: rest =>
      .ok (JVal.num, rest)
    | cs2 => do
      let r ← parseNumber cs2
      .ok (JVal.num, r)
  | Nat.succ fuel, PMode.arrItems, cs => do
    let (v, r) ← parseStep fuel PMode.val cs
    match skipWs r with
    | ',' :: r2 => do
      let (tail, r3) ← parseStep fuel PMode.arrItems r2
      match tail with
      | JVal.arr vs => .ok (JVal.arr (v :: vs), r3)
      | _ => .error "internal"
    | ']' :: r2 => .ok (JVal.arr [v], r2)
    | _ => .error "expecting comma delimiter"
  | Nat.succ fuel, PMode.objItems, cs =>
    match skipWs cs with
    | '"' :: rest => do
      let (k, r) ← parseJString rest
      match skipWs r with
      | ':' :: r2 => do
        let (v, r3) ← parseStep fuel PMode.val r2
        match skipWs r3 with
        | ',' :: r4 => do
          let (tail, r5) ← parseStep fuel PMode.objItems r4
          match tail with
          | JVal.obj fs => .ok (JVal.obj ((String.mk k, v) :: fs), r5)
          | _ => .error "internal"
        | '\x7d' :: r4 => .ok (JVal.obj [(String.mk k, v)], r4)
        | _ => .error "expecting comma delimiter"
      | _ => .error "expecting colon delimiter"
    | _ => .error "expecting property name"

/-- `json.loads`: parse a complete JSON document, rejecting trailing
non-whitespace (`Extra data`). -/
def json_loads (s : String) : Except String JVal := do
  let cs := s.toList
  let (v, rest) ← parseStep (2 * cs.length + 4) PMode.val cs
  match skipWs rest with
  | [] => .ok v
  | _ => .error "extra data"

/-- Keys of a decoded JSON object in Python-dict order: first occurrence
wins (duplicate keys keep the first position). -/
def firstKeys : List (String × JVal) → List String → List String
  | [], _ => []
  | (k, _) :: rest, seen =>
    if seen.contains k then firstKeys rest seen
    else k :: firstKeys rest (k :: seen)

/-- Python's iteration over a decoded JSON value inside
`[Path(p).resolve() for p in json.loads(...)]`: a list yields its
elements, which must be strings (`Path(nonStr)` raises `TypeError`); a
string yields its characters; a dict yields its keys in first-occurrence
order; numbers, booleans and `None` are not iterable (`TypeError`). -/
def pathIterElems : JVal → Except Err (List String)
  | JVal.arr vs =>
    vs.mapM (fun v =>
      match v with
      | JVal.str s => Except.ok s
      | _ => Except.error Err.configError)
  | JVal.str s => .ok (s.toList.map (fun c => String.mk [c]))
  | JVal.obj fs => .ok (firstKeys fs [])
  | _ => .error Err.configError

/-- `_get_allowed_dir()`: read `ALLOWED_DIR` from the process environment
(`KeyError` if unset, modelled by the `Option` argument); an empty value
yields the empty allow-list; a value containing `[` anywhere is decoded
with `json.loads` and each element is resolved; any other value is a
single path, resolved. -/
def get_allowed_dir (env : Env) (allowed_dir_var : Option String) :
    Except Err (List CPath) :=
  match allowed_dir_var with
  | none => .error .keyError
  | some s =>
    if s = "" then .ok []
    else if s.toList.contains '[' then
      match json_loads s with
      | .error _ => .error .configError
      | .ok v =>
        match pathIterElems v with
        | .error e => .error e
        | .ok ps => .ok (ps.map env.resolve)
    else .ok [env.resolve s]

/-! ## Filesystem state and the string-level primitives -/

/-- A filesystem entry: a regular file with its text content, or a
directory. -/
inductive Entry where
  | file (content : String)
  | dir
  deriving DecidableEq, Repr

/-- The mutable filesystem, as a finite map from canonical paths to
entries (association list, first binding wins). -/
def FSState := List (CPath × Entry)

instance : DecidableEq FSState := by
  unfold FSState
  infer_instance

/-- Entry stored at canonical path `k`, if any. -/
def lookupEntry : FSState → CPath → Option Entry
  | [], _ => none
  | (k, e) :: rest, q => if q = k then some e else lookupEntry rest q

/-- Store entry `v` at canonical path `q` (replacing the first existing
binding, appending otherwise). -/
def setEntry : FSState → CPath → Entry → FSState
  | [], q, v => [(q, v)]
  | (k, e) :: rest, q, v =>
    if q = k then (q, v) :: rest else (k, e) :: setEntry rest q v

/-- Remove the binding at canonical path `q`, if any. -/
def removeEntry : FSState → CPath → FSState
  | [], _ => []
  | (k, e) :: rest, q => if q = k then rest else (k, e) :: removeEntry rest q

/-- Core of Python's `str.replace` for a non-empty pattern `old`: scan
left to right; on a match, emit `new` and skip the matched characters
(`skip` counts match characters still to be consumed); otherwise copy one
character.  Occurrences are non-overlapping because the scan resumes
after the matched text. -/
def listReplaceGo (old new : List Char) : List Char → Nat → List Char
  | [], _ => []
  | _ :: rest, Nat.succ skip => listReplaceGo old new rest skip
  | c :: rest, 0 =>
    if old.isPrefixOf (c :: rest) then
      new ++ listReplaceGo old new rest (old.length - 1)
    else c :: listReplaceGo old new rest 0

/-- Python's `before.replace(old_str, new_str)`.  For an empty `old` the
replacement is inserted before every character and at the end, exactly as
CPython does (`"ab".replace("", "-") == "-a-b-"`). -/
def pyReplace (s old new : String) : String :=
  if old.toList.isEmpty then
    String.mk (new.toList ++ s.toList.foldr (fun c acc => c :: (new.toList ++ acc)) [])
  else String.mk (listReplaceGo old.toList new.toList s.toList 0)

/-- Python's `old in s` substring test: some suffix of `s` starts with
`old`. -/
def occursAux (old : List Char) : List Char → Bool
  | [] => old.isEmpty
  | c :: rest => old.isPrefixOf (c :: rest) || occursAux old rest

/-- `old in s` on strings. -/
def occursIn (old s : String) : Bool :=
  occursAux old.toList s.toList

/-- Split one line (with its terminator) off the front, following
Python's `str.splitlines`: terminators are `\n`, `\r`, `\r\n` and the
extra Unicode line boundaries `splitlines` recognises. -/
def isLineBreak (c : Char) : Bool :=
  c = '\n' || c = '\r' || c = '\x0b' || c = '\x0c' ||
  c.toNat = 0x1c || c.toNat = 0x1d || c.toNat = 0x1e ||
  c.toNat = 0x85 || c.toNat = 0x2028 || c.toNat = 0x2029

/-- First line of the input together with its terminator, and the rest. -/
def takeLine : List Char → (List Char × List Char)
  | [] => ([], [])
  | '\r' :: '\n' :: rest => (['\r', '\n'], rest)
  | c :: rest =>
    if isLineBreak c then ([c], rest)
    else
      let (l, r) := takeLine rest
      (c :: l, r)

/-- Fueled loop of `splitlines(keepends=True)`; each line consumes at
least one character, so fuel `length` suffices. -/
def splitlinesGo : Nat → List Char → List (List Char)
  | 0, _ => []
  | _, [] => []
  | Nat.succ fuel, c :: cs =>
    let (l, r) := takeLine (c :: cs)
    l :: splitlinesGo fuel r

/-- Python's `s.splitlines(keepends=True)`. -/
def splitlinesKE (s : String) : List String :=
  (splitlinesGo s.toList.length s.toList).map String.mk

/-- Length of the longest common prefix of two line lists. -/
def commonPrefixLen : List String → List String → Nat
  | x :: xs, y :: ys => if x = y then commonPrefixLen xs ys + 1 else 0
  | _, _ => 0

/-- Model of `"".join(difflib.unified_diff(a, b, fromfile="before",
tofile="after"))`.  Faithful on the property the claims use: the result
is empty iff the two line sequences are equal (for equal inputs
`get_grouped_opcodes` yields no group, so `unified_diff` yields nothing;
for different inputs at least one hunk is produced).  For different
inputs a single hunk with the standard three lines of context is
emitted; `SequenceMatcher`'s hunk granularity is not reproduced and no
claim depends on it. -/
def unifiedDiff (a b : List String) : String :=
  if a = b then ""
  else
    let p := commonPrefixLen a b
    let q := commonPrefixLen (a.drop p).reverse (b.drop p).reverse
    let ctx := min p 3
    let startA := p - ctx
    let ctxPre := (a.drop startA).take ctx
    let ctxPost := (a.drop (a.length - q)).take 3
    let del := (a.drop p).take (a.length - q - p)
    let ins := (b.drop p).take (b.length - q - p)
    let lenA := ctx + del.length + ctxPost.length
    let lenB := ctx + ins.length + ctxPost.length
    "--- before\n+++ after\n@@ -" ++ toString (startA + 1) ++ "," ++
      toString lenA ++ " +" ++ toString (startA + 1) ++ "," ++
      toString lenB ++ " @@\n" ++
      String.join (ctxPre.map (fun l => " " ++ l)) ++
      String.join (del.map (fun l => "-" ++ l)) ++
      String.join (ins.map (fun l => "+" ++ l)) ++
      String.join (ctxPost.map (fun l => " " ++ l))

/-! ## The gated file operations

Each operation returns the successor filesystem state together with the
normal result or the raised error.  In the source every raise happens
before any mutation, so every error outcome carries the unchanged input
state. -/

/-- `write_file(path, content, overwrite_if_exists)`. -/
def write_file (env : Env) (allowed : List CPath) (st : FSState)
    (path content : String) (overwrite_if_exists : Bool) :
    FSState × Except Err String :=
  match path_is_allowed env allowed path with
  | .error e => (st, .error e)
  | .ok () =>
    let k := env.resolve path
    let file_exists := (lookupEntry st k).isSome
    if file_exists && !overwrite_if_exists then
      (st, .ok "File exists, no action taken")
    else
      match lookupEntry st k with
      | some .dir => (st, .error .ioError)
      | _ =>
        (setEntry st k (.file content),
         .ok (if file_exists then "File overwritten" else "File created"))

/-- `edit_file(path, old_str, new_str, dry_run)`. -/
def edit_file (env : Env) (allowed : List CPath) (st : FSState)
    (path old_str new_str : String) (dry_run : Bool) :
    FSState × Except Err String :=
  match path_is_allowed env allowed path with
  | .error e => (st, .error e)
  | .ok () =>
    match lookupEntry st (env.resolve path) with
    | some (.file before) =>
      let after := pyReplace before old_str new_str
      if dry_run then
        (st, .ok (unifiedDiff (splitlinesKE before) (splitlinesKE after)))
      else
        (setEntry st (env.resolve path) (.file after), .ok "File edited")
    | _ => (st, .error .ioError)

/-- `move(src, dst)`. -/
def move (env : Env) (allowed : List CPath) (st : FSState)
    (src dst : String) : FSState × Except Err String :=
  match path_is_allowed env allowed src with
  | .error e => (st, .error e)
  | .ok () =>
    match path_is_allowed env allowed dst with
    | .error e => (st, .error e)
    | .ok () =>
      if (lookupEntry st (env.resolve dst)).isSome then
        (st, .error .fileExists)
      else
        match lookupEntry st (env.resolve src) with
        | none => (st, .error .ioError)
        | some e =>
          (setEntry (removeEntry st (env.resolve src)) (env.resolve dst) e,
           .ok "Moved path")

/-! ## The spec-level replacement function and witness fixtures -/

/-- Index of the leftmost occurrence of `old` in `s`, if any. -/
def firstOcc (old : List Char) : List Char → Option Nat
  | [] => if old.isEmpty then some 0 else none
  | c :: rest =>
    if old.isPrefixOf (c :: rest) then some 0
    else (firstOcc old rest).map (· + 1)

/-- The spec's wording of the edit semantics: repeatedly replace the
leftmost occurrence of `old` by `new` and continue scanning only after
the inserted replacement (left-to-right, non-overlapping replacement of
every occurrence).  Introduced to be compared against the source-derived
`pyReplace`; stated for a non-empty `old` — for the empty fragment the
spec's wording fixes no behaviour, so the function is the identity there
and the agreement theorem assumes `old ≠ ""`. -/
def specReplace (old new : List Char) (s : List Char) : List Char :=
  if hold : old = [] then s
  else
    match hf : firstOcc old s with
    | none => s
    | some i => s.take i ++ new ++ specReplace old new (s.drop (i + old.length))
termination_by s.length
decreasing_by
  have hlen : 0 < old.length := List.length_pos.mpr hold
  have hb : ∀ i' : Nat, firstOcc old s = some i' → i' + old.length ≤ s.length := by
    clear hf
    induction s with
    | nil =>
      intro i' hf'
      cases old with
      | nil => exact absurd rfl hold
      | cons o os =>
        unfold firstOcc at hf'
        simp [List.isEmpty] at hf'
    | cons c rest ih =>
      intro i' hf'
      unfold firstOcc at hf'
      by_cases hpre : old.isPrefixOf (c :: rest)
      · rw [if_pos hpre] at hf'
        cases hf'
        simpa using (List.isPrefixOf_iff_prefix.mp hpre).length_le
      · rw [if_neg hpre] at hf'
        cases hfo : firstOcc old rest with
        | none => rw [hfo] at hf'; simp at hf'
        | some j =>
          rw [hfo] at hf'
          simp only [Option.map, Option.some.injEq] at hf'
          have := ih j hfo
          simp only [List.length_cons]
          omega
  have hbi := hb i hf
  simp only [List.length_drop]
  omega

/-- Split a clean absolute path on `/` (helper for the concrete witness
environment `env0`). -/
def splitSlashGo : List Char → List Char → List String
  | [], acc => if acc.isEmpty then [] else [String.mk acc.reverse]
  | '/' :: rest, acc =>
    if acc.isEmpty then splitSlashGo rest []
    else String.mk acc.reverse :: splitSlashGo rest []
  | c :: rest, acc => splitSlashGo rest (c :: acc)

/-- A concrete environment for witnesses: resolution of already-clean
absolute paths (no `.`, `..` or symlink indirection involved), splitting
on `/`. -/
def env0 : Env := ⟨fun s => splitSlashGo s.toList []⟩

/-- Witness allow-list: the single root `/sandbox`. -/
def rootsA : List CPath := [["sandbox"]]

/-- Witness filesystem: one file `/sandbox/a.txt`. -/
def stA : FSState := [(["sandbox", "a.txt"], Entry.file "hello world\n")]

/-- Witness filesystem for `move`: two files under `/sandbox`. -/
def stC : FSState :=
  [(["sandbox", "a.txt"], Entry.file "A"), (["sandbox", "b.txt"], Entry.file "B")]

/-! ## Theorems -/


theorem mem_parents {d q : CPath} : d ∈ parents q ↔ (d <+: q ∧ d ≠ q) := by
  unfold parents
  simp only [List.mem_reverse, List.mem_map, List.mem_range]
  constructor
  · rintro ⟨k, hk, rfl⟩
    refine ⟨⟨q.drop k, List.take_append_drop k q⟩, ?_⟩
    intro h
    have hlen := congrArg List.length h
    simp only [List.length_take] at hlen
    omega
  · rintro ⟨hpre, hne⟩
    refine ⟨d.length, ?_, (List.prefix_iff_eq_take.mp hpre).symm⟩
    have hle := hpre.length_le
    rcases Nat.lt_or_ge d.length q.length with h | h
    · exact h
    · exact absurd (List.IsPrefix.eq_of_length hpre (le_antisymm hle h)) hne

/-! ## Claim C1: the authorization boundary -/

/-- C1: `_path_is_allowed` succeeds (returns normally) iff the canonical
resolved form of the candidate either exactly equals some allowed root,
or has some allowed root as a strict ancestor of its path-component
chain; otherwise it fails with `NotAuthorizedError`.  In particular a
path resolving to a configured allowed root itself is authorized (left
disjunct). -/
theorem C1_authorization_boundary (env : Env) (allowed : List CPath) (p : String) :
    path_is_allowed env allowed p =
      (if ∃ d ∈ allowed, env.resolve p = d ∨ (d <+: env.resolve p ∧ d ≠ env.resolve p)
       then Except.ok () else Except.error Err.notAuthorized) := by
  have hEq : ((allowed.any fun dir => env.resolve p == dir) = true) ↔
      ∃ d ∈ allowed, env.resolve p = d := by
    simp [List.any_eq_true]
  have hAnc : ((allowed.any fun dir => (parents (env.resolve p)).contains dir) = true) ↔
      ∃ d ∈ allowed, d <+: env.resolve p ∧ d ≠ env.resolve p := by
    simp only [List.any_eq_true, List.contains, List.elem_iff, mem_parents]
  unfold path_is_allowed
  cases hb1 : (allowed.any fun dir => env.resolve p == dir) with
  | true =>
    obtain ⟨d, hd, he⟩ := hEq.mp hb1
    exact (if_pos ⟨d, hd, Or.inl he⟩).symm
  | false =>
    cases hb2 : (allowed.any fun dir => (parents (env.resolve p)).contains dir) with
    | true =>
      obtain ⟨d, hd, ha⟩ := hAnc.mp hb2
      exact (if_pos ⟨d, hd, Or.inr ha⟩).symm
    | false =>
      have hnP : ¬ ∃ d ∈ allowed, env.resolve p = d ∨
          (d <+: env.resolve p ∧ d ≠ env.resolve p) := by
        rintro ⟨d, hd, he | ha⟩
        · have h := hEq.mpr ⟨d, hd, he⟩
          rw [hb1] at h
          exact Bool.false_ne_true h
        · have h := hAnc.mpr ⟨d, hd, ha⟩
          rw [hb2] at h
          exact Bool.false_ne_true h
      exact (if_neg hnP).symm

/-! ## Claims C3 and C10: configuration edge cases -/

/-- C3: an empty configuration value resolves to the empty allow-list,
and with an empty allow-list every authorization check fails with
`NotAuthorizedError` — the system fails closed. -/
theorem C3_empty_config_fails_closed (env : Env) :
    get_allowed_dir env (some "") = .ok [] ∧
    ∀ p : String, path_is_allowed env [] p = .error .notAuthorized := by
  exact ⟨rfl, fun p => rfl⟩

/-- C10: module initialization performs a direct mandatory lookup of
`ALLOWED_DIR`; if the variable is absent (unset, not merely empty) the
lookup raises `KeyError`, so `ALLOWED_DIR = _get_allowed_dir()` fails
when the module is first loaded, before any operation can run. -/
theorem C10_unset_variable_keyerror (env : Env) :
    get_allowed_dir env none = .error .keyError := rfl

/-! ## Claim C4: dry-run edits never touch the filesystem -/

/-- C4: `edit_file` with `dry_run = True` leaves the filesystem state
unchanged, for every path (authorized or not), every fragment pair and
every outcome. -/
theorem C4_dry_run_never_writes (env : Env) (allowed : List CPath)
    (st : FSState) (path old_str new_str : String) :
    (edit_file env allowed st path old_str new_str true).1 = st := by
  unfold edit_file
  split
  · rfl
  · split
    · rfl
    · rfl

/-! ## Replacement lemmas -/

/-- `listReplaceGo` with a pending skip equals restarting after dropping
the skipped characters. -/
theorem listReplaceGo_skip (old new : List Char) (s : List Char) :
    ∀ k : Nat, listReplaceGo old new s k = listReplaceGo old new (s.drop k) 0 := by
  induction s with
  | nil => intro k; cases k <;> rfl
  | cons c rest ih =>
    intro k
    cases k with
    | zero => rfl
    | succ k' => simpa [listReplaceGo] using ih k'

/-- If `old` does not occur in `s`, the scan copies `s` unchanged. -/
theorem listReplaceGo_of_not_occurs {old new s : List Char}
    (h : occursAux old s = false) : listReplaceGo old new s 0 = s := by
  induction s with
  | nil => rfl
  | cons c rest ih =>
    rw [occursAux] at h
    simp only [Bool.or_eq_false_iff] at h
    simp [listReplaceGo, h.1, ih h.2]

/-- If `old` does not occur in `s` (so in particular `old` is not the
empty string), `s.replace(old, new) == s`. -/
theorem pyReplace_of_not_occurs {s old new : String}
    (h : occursIn old s = false) : pyReplace s old new = s := by
  have hne : old.toList.isEmpty = false := by
    cases hl : old.toList with
    | nil =>
      exfalso
      unfold occursIn at h
      rw [hl] at h
      cases hs : s.toList with
      | nil => rw [hs] at h; simp [occursAux, List.isEmpty] at h
      | cons c cs => rw [hs] at h; simp [occursAux, List.isPrefixOf] at h
    | cons o os => simp
  unfold pyReplace
  rw [hne]
  simp only [Bool.false_eq_true, if_false]
  rw [listReplaceGo_of_not_occurs h]
  cases s
  rfl

/-! ## Agreement of `pyReplace` with the spec-level replacement -/

theorem firstOcc_nil {old : List Char} (hold : old ≠ []) :
    firstOcc old [] = none := by
  unfold firstOcc
  cases old with
  | nil => exact absurd rfl hold
  | cons o os => simp [List.isEmpty]

theorem specReplace_of_firstOcc_none {old new s : List Char} (hold : old ≠ [])
    (hfo : firstOcc old s = none) : specReplace old new s = s := by
  rw [specReplace, dif_neg hold]
  split
  · rfl
  · next i heq => rw [hfo] at heq; cases heq

theorem specReplace_of_firstOcc_some {old new s : List Char} {i : Nat}
    (hold : old ≠ []) (hfo : firstOcc old s = some i) :
    specReplace old new s =
      s.take i ++ new ++ specReplace old new (s.drop (i + old.length)) := by
  rw [specReplace, dif_neg hold]
  split
  · next heq => rw [hfo] at heq; cases heq
  · next j heq =>
    rw [hfo] at heq
    cases heq
    rfl

theorem listReplaceGo_eq_specReplace (old new : List Char) (hold : old ≠ []) :
    ∀ (n : Nat) (s : List Char), s.length ≤ n →
      listReplaceGo old new s 0 = specReplace old new s := by
  have hL : 0 < old.length := List.length_pos.mpr hold
  intro n
  induction n with
  | zero =>
    intro s hs
    have hnil : s = [] := List.length_eq_zero.mp (Nat.le_zero.mp hs)
    subst hnil
    rw [specReplace_of_firstOcc_none hold (firstOcc_nil hold)]
    rfl
  | succ m ih =>
    intro s hs
    cases s with
    | nil =>
      rw [specReplace_of_firstOcc_none hold (firstOcc_nil hold)]
      rfl
    | cons c rest =>
      simp only [List.length_cons, Nat.succ_le_succ_iff] at hs
      by_cases hpre : old.isPrefixOf (c :: rest)
      · have hfo : firstOcc old (c :: rest) = some 0 := by
          unfold firstOcc
          rw [if_pos hpre]
        rw [specReplace_of_firstOcc_some hold hfo]
        simp only [listReplaceGo, if_pos hpre, List.take_zero, List.nil_append]
        rw [listReplaceGo_skip]
        have hdrop : (c :: rest).drop (0 + old.length) = rest.drop (old.length - 1) := by
          have h1 : 0 + old.length = (old.length - 1) + 1 := by omega
          rw [h1, List.drop_succ_cons]
        rw [hdrop]
        rw [ih (rest.drop (old.length - 1)) (by simp only [List.length_drop]; omega)]
      · have hLHS : listReplaceGo old new (c :: rest) 0 =
            c :: listReplaceGo old new rest 0 := by
          simp only [listReplaceGo, if_neg hpre]
        rw [hLHS, ih rest hs]
        cases hfr : firstOcc old rest with
        | none =>
          have hfo : firstOcc old (c :: rest) = none := by
            unfold firstOcc
            rw [if_neg hpre, hfr]
            rfl
          rw [specReplace_of_firstOcc_none hold hfo,
            specReplace_of_firstOcc_none hold hfr]
        | some j =>
          have hfo : firstOcc old (c :: rest) = some (j + 1) := by
            unfold firstOcc
            rw [if_neg hpre, hfr]
            rfl
          rw [specReplace_of_firstOcc_some hold hfo,
            specReplace_of_firstOcc_some hold hfr]
          have harith : j + 1 + old.length = (j + old.length) + 1 := by omega
          rw [harith, List.drop_succ_cons, List.take_succ_cons]
          simp

theorem pyReplace_eq_specReplace (s old new : String) (h : old ≠ "") :
    pyReplace s old new = String.mk (specReplace old.toList new.toList s.toList) := by
  have hne : old.toList ≠ [] := by
    intro hl
    apply h
    cases old with
    | mk data =>
      simp only [String.toList, String.data] at hl
      rw [hl]
  have hiE : old.toList.isEmpty = false := by
    cases hl : old.toList with
    | nil => exact absurd hl hne
    | cons o os => rfl
  unfold pyReplace
  rw [hiE]
  simp only [Bool.false_eq_true, if_false]
  rw [listReplaceGo_eq_specReplace old.toList new.toList hne s.toList.length
    s.toList le_rfl]

/-! ## Diff and state lemmas -/

/-- `difflib.unified_diff` yields nothing when the two line sequences are
equal. -/
theorem unifiedDiff_self (a : List String) : unifiedDiff a a = "" := by
  simp [unifiedDiff]

theorem lookupEntry_setEntry_self (st : FSState) (k : CPath) (v : Entry) :
    lookupEntry (setEntry st k v) k = some v := by
  induction st with
  | nil => simp [setEntry, lookupEntry]
  | cons kv rest ih =>
    obtain ⟨k', e⟩ := kv
    by_cases h : k = k' <;> simp [setEntry, lookupEntry, h, ih]

/-- Re-storing the value already present is a no-op on the state. -/
theorem setEntry_of_lookup_eq {st : FSState} {k : CPath} {v : Entry}
    (h : lookupEntry st k = some v) : setEntry st k v = st := by
  induction st with
  | nil => simp [lookupEntry] at h
  | cons kv rest ih =>
    obtain ⟨k', e⟩ := kv
    by_cases hk : k = k'
    · subst hk
      have h' : e = v := by simpa [lookupEntry] using h
      subst h'
      simp [setEntry]
    · simp only [lookupEntry, if_neg hk] at h
      simp [setEntry, hk, ih h]

/-- On an authorized path holding a regular file, `edit_file` with
`dry_run = False` replaces and writes back. -/
theorem edit_file_apply (env : Env) (allowed : List CPath) (st : FSState)
    (path old_str new_str C : String)
    (hauth : path_is_allowed env allowed path = .ok ())
    (hfile : lookupEntry st (env.resolve path) = some (.file C)) :
    edit_file env allowed st path old_str new_str false =
      (setEntry st (env.resolve path) (.file (pyReplace C old_str new_str)),
       .ok "File edited") := by
  unfold edit_file
  rw [hauth, hfile]
  rfl

/-- On an authorized path holding a regular file, `edit_file` with
`dry_run = True` returns the unified diff of the replacement. -/
theorem edit_file_dry (env : Env) (allowed : List CPath) (st : FSState)
    (path old_str new_str C : String)
    (hauth : path_is_allowed env allowed path = .ok ())
    (hfile : lookupEntry st (env.resolve path) = some (.file C)) :
    edit_file env allowed st path old_str new_str true =
      (st, .ok (unifiedDiff (splitlinesKE C)
        (splitlinesKE (pyReplace C old_str new_str)))) := by
  unfold edit_file
  rw [hauth, hfile]
  rfl

/-! ## Claims C5, C6, C7: the edit subsystem -/

/-- C5: on an authorized path whose file content is `C`, `edit_file` with
`dry_run = False` overwrites the file so that its new content is
`C.replace(old, new)` — which, for a non-empty fragment, is exactly the
spec's replacement of every non-overlapping occurrence, left to right —
and reports success with the `"File edited"` marker. -/
theorem C5_edit_overwrites_with_replacement (env : Env) (allowed : List CPath)
    (st : FSState) (path old_str new_str C : String)
    (hauth : path_is_allowed env allowed path = .ok ())
    (hfile : lookupEntry st (env.resolve path) = some (.file C)) :
    edit_file env allowed st path old_str new_str false =
      (setEntry st (env.resolve path) (.file (pyReplace C old_str new_str)),
       .ok "File edited") ∧
    (old_str ≠ "" →
      pyReplace C old_str new_str =
        String.mk (specReplace old_str.toList new_str.toList C.toList)) :=
  ⟨edit_file_apply env allowed st path old_str new_str C hauth hfile,
   fun h => pyReplace_eq_specReplace C old_str new_str h⟩

/-- Witness for C5: editing `/sandbox/a.txt` (content `hello world\n`)
replaces `world` by `there` on disk and reports success. -/
theorem C5_witness :
    edit_file env0 rootsA stA "/sandbox/a.txt" "world" "there" false =
      ([(["sandbox", "a.txt"], Entry.file "hello there\n")], .ok "File edited") := by
  have h := C5_edit_overwrites_with_replacement env0 rootsA stA "/sandbox/a.txt"
    "world" "there" "hello world\n" (by rfl) (by rfl)
  rw [h.1]
  rfl

/-- C6: on an authorized file in which `old` does not occur, the dry run
returns the empty diff, and the real run leaves the content byte-identical
and still reports success. -/
theorem C6_no_occurrence_noop (env : Env) (allowed : List CPath)
    (st : FSState) (path old_str new_str C : String)
    (hauth : path_is_allowed env allowed path = .ok ())
    (hfile : lookupEntry st (env.resolve path) = some (.file C))
    (hnoc : occursIn old_str C = false) :
    edit_file env allowed st path old_str new_str true = (st, .ok "") ∧
    edit_file env allowed st path old_str new_str false =
      (st, .ok "File edited") := by
  have hrep : pyReplace C old_str new_str = C := pyReplace_of_not_occurs hnoc
  constructor
  · rw [edit_file_dry env allowed st path old_str new_str C hauth hfile, hrep,
      unifiedDiff_self]
  · rw [edit_file_apply env allowed st path old_str new_str C hauth hfile, hrep,
      setEntry_of_lookup_eq hfile]

/-- Witness for C6: `xyz` does not occur in `hello world\n`; the dry run
yields the empty diff and the real run keeps the state. -/
theorem C6_witness :
    edit_file env0 rootsA stA "/sandbox/a.txt" "xyz" "q" true = (stA, .ok "") ∧
    edit_file env0 rootsA stA "/sandbox/a.txt" "xyz" "q" false =
      (stA, .ok "File edited") :=
  C6_no_occurrence_noop env0 rootsA stA "/sandbox/a.txt" "xyz" "q"
    "hello world\n" (by rfl) (by rfl) (by rfl)

/-- C7: when `old` no longer occurs in the content produced by a first
`edit_file(path, old, new, dry_run=False)`, an identical second call
leaves the filesystem state exactly as the first call left it (and still
reports success): the edit is idempotent. -/
theorem C7_edit_idempotent (env : Env) (allowed : List CPath)
    (st : FSState) (path old_str new_str C : String)
    (hauth : path_is_allowed env allowed path = .ok ())
    (hfile : lookupEntry st (env.resolve path) = some (.file C))
    (hnoc : occursIn old_str (pyReplace C old_str new_str) = false) :
    edit_file env allowed
        (edit_file env allowed st path old_str new_str false).1
        path old_str new_str false =
      ((edit_file env allowed st path old_str new_str false).1,
       .ok "File edited") := by
  rw [edit_file_apply env allowed st path old_str new_str C hauth hfile]
  have hlook : lookupEntry
      (setEntry st (env.resolve path) (.file (pyReplace C old_str new_str)))
      (env.resolve path) = some (.file (pyReplace C old_str new_str)) :=
    lookupEntry_setEntry_self st (env.resolve path) _
  rw [edit_file_apply env allowed _ path old_str new_str
    (pyReplace C old_str new_str) hauth hlook]
  rw [pyReplace_of_not_occurs hnoc, setEntry_of_lookup_eq hlook]

/-- Witness for C7: after replacing `world` by `there`, `world` no longer
occurs, and the repeated edit is a no-op on the state. -/
theorem C7_witness :
    edit_file env0 rootsA
        (edit_file env0 rootsA stA "/sandbox/a.txt" "world" "there" false).1
        "/sandbox/a.txt" "world" "there" false =
      ((edit_file env0 rootsA stA "/sandbox/a.txt" "world" "there" false).1,
       .ok "File edited") :=
  C7_edit_idempotent env0 rootsA stA "/sandbox/a.txt" "world" "there"
    "hello world\n" (by rfl) (by rfl) (by rfl)

/-! ## Claims C8 and C9: write and move guards -/

/-- C8: `write_file` with `overwrite_if_exists = False` on a path whose
file already exists leaves the state untouched and reports the tri-state
no-action outcome. -/
theorem C8_write_file_no_overwrite (env : Env) (allowed : List CPath)
    (st : FSState) (path content C : String)
    (hauth : path_is_allowed env allowed path = .ok ())
    (hfile : lookupEntry st (env.resolve path) = some (.file C)) :
    write_file env allowed st path content false =
      (st, .ok "File exists, no action taken") := by
  unfold write_file
  rw [hauth]
  simp [hfile]

/-- Witness for C8: writing to the existing `/sandbox/a.txt` without
overwrite takes no action. -/
theorem C8_witness :
    write_file env0 rootsA stA "/sandbox/a.txt" "new content" false =
      (stA, .ok "File exists, no action taken") :=
  C8_write_file_no_overwrite env0 rootsA stA "/sandbox/a.txt" "new content"
    "hello world\n" (by rfl) (by rfl)

/-- C9: `move` onto an existing destination raises `FileExistsError` (the
spec's ConflictError) and returns the filesystem state unchanged — the
check precedes any mutation, so both source and destination entries are
untouched. -/
theorem C9_move_existing_destination (env : Env) (allowed : List CPath)
    (st : FSState) (src dst : String) (e : Entry)
    (hsrc : path_is_allowed env allowed src = .ok ())
    (hdst : path_is_allowed env allowed dst = .ok ())
    (hex : lookupEntry st (env.resolve dst) = some e) :
    move env allowed st src dst = (st, .error .fileExists) := by
  unfold move
  rw [hsrc, hdst, hex]
  rfl

/-- Witness for C9: moving `/sandbox/b.txt` onto the existing
`/sandbox/a.txt` fails with the conflict error and keeps the state. -/
theorem C9_witness :
    move env0 rootsA stC "/sandbox/b.txt" "/sandbox/a.txt" =
      (stC, .error .fileExists) :=
  C9_move_existing_destination env0 rootsA stC "/sandbox/b.txt"
    "/sandbox/a.txt" (Entry.file "A") (by rfl) (by rfl) (by rfl)

/-! ## Claim C2: the allow-list value dispatch -/

/-- Traversing a list of JSON strings with the element check of
`pathIterElems` succeeds with the underlying strings. -/
theorem mapM_elem_strs (elems : List String) :
    List.mapM (fun v =>
        match v with
        | JVal.str s => Except.ok s
        | _ => Except.error Err.configError)
      (elems.map JVal.str) = (Except.ok elems : Except Err (List String)) := by
  induction elems with
  | nil => rfl
  | cons a as ih =>
    rw [List.map_cons, List.mapM_cons, ih]
    rfl

/-- Iterating over a decoded JSON array of strings yields those strings. -/
theorem pathIterElems_arr_strs (elems : List String) :
    pathIterElems (JVal.arr (elems.map JVal.str)) = Except.ok elems := by
  unfold pathIterElems
  exact mapM_elem_strs elems

/-- C2 counterexample: the configuration value `/tmp/ab[cd` is non-empty
and does not start with `[`, yet the resolver does not treat it as a
single path: `_get_allowed_dir` tests whether `[` occurs anywhere in the
value, so this value is sent to `json.loads`, which rejects it, and the
resolver raises instead of producing the claimed one-element allow-list. -/
theorem C2_counterexample :
    ("/tmp/ab[cd" : String) ≠ "" ∧
    "/tmp/ab[cd".toList.head? ≠ some '[' ∧
    get_allowed_dir env0 (some "/tmp/ab[cd") = .error .configError := by
  refine ⟨by decide, by decide, by rfl⟩

/-- C2 (amended): the resolver treats every non-empty configuration value
that does not CONTAIN `[` as a single path (one-element allow-list with
that path resolved); a value containing `[` anywhere is decoded as JSON —
if the decode fails, the resolver fails with the configuration error, and
a well-formed JSON array of path strings yields those paths resolved. -/
theorem C2_amended_allowlist_dispatch (env : Env) (s : String) (hne : s ≠ "") :
    (s.toList.contains '[' = false →
      get_allowed_dir env (some s) = .ok [env.resolve s]) ∧
    (s.toList.contains '[' = true →
      (∀ e, json_loads s = .error e →
        get_allowed_dir env (some s) = .error .configError) ∧
      (∀ elems : List String,
        json_loads s = .ok (JVal.arr (elems.map JVal.str)) →
        get_allowed_dir env (some s) = .ok (elems.map env.resolve))) := by
  refine ⟨?_, fun hbr => ⟨?_, ?_⟩⟩
  · intro hbr
    simp only [get_allowed_dir]
    rw [if_neg hne, hbr]
    rfl
  · intro e he
    simp only [get_allowed_dir]
    rw [if_neg hne, hbr, he]
    rfl
  · intro elems helems
    simp only [get_allowed_dir]
    rw [if_neg hne, hbr, helems]
    simp [pathIterElems_arr_strs]

/-- Witness for the amended C2: a well-formed JSON array value is decoded
and each element resolved into the allow-list. -/
theorem C2_amended_witness :
    get_allowed_dir env0 (some "[\"/a\", \"/b\"]") =
      .ok ((["/a", "/b"] : List String).map env0.resolve) :=
  ((C2_amended_allowlist_dispatch env0 "[\"/a\", \"/b\"]" (by decide)).2
    (by rfl)).2 ["/a", "/b"] (by rfl)
